import Mathlib

/-!
Shallow embedding of the Tramper backend's Request Negotiation &
Status-Transition Engine (apps/requests), together with the parts of the
Shipment and Trip models that the engine reads or writes.

Conventions of the embedding:
- Django model instances compare equal iff their primary keys agree, so users
  are compared by `id`; ids are `Nat` stand-ins for UUIDs.
- `DecimalField(max_digits=10, decimal_places=2)` amounts are modelled as `Int`
  values (scaled decimals); `MinValueValidator(0)` becomes an explicit check.
- `DateTimeField(auto_now=...)` timestamps are `Nat` clock values passed in
  explicitly as `now`.
- DRF raises are modelled as `Except` errors; an error result means nothing
  was saved, which is how the views behave (every raise happens before any
  `save()` call), so "persisted state unchanged on failure" is the `.error`
  case of the embedding.
- Error *kinds* follow the spec's taxonomy (ValidationError /
  AuthorizationError / StateError / NotFoundError); each raise site in the
  source is mapped to the kind its message denotes (role-check messages to
  AuthorizationError, finalized-state message to StateError, field validation
  to ValidationError). Message texts are elided.
- Notification dispatch (`notification_service.notify_*`) is fire-and-forget
  and mutates none of the entities here, so it is dropped from the embedding.
-/

namespace Tramper

/-- A user, as the negotiation engine sees it: an id and the superuser flag
consulted by `IsRequestParticipant`. -/
structure User where
  id : Nat
  is_superuser : Bool
deriving Repr, DecidableEq

/-- `Shipment.STATUS_CHOICES` from apps/shipments/models.py. -/
inductive ShipmentStatus where
  | pending
  | accepted
  | in_transit
  | delivered
  | received
  | cancelled
deriving Repr, DecidableEq

/-- The fields of `Shipment` (apps/shipments/models.py) that the negotiation
engine reads or writes: owner, assigned traveler, status. -/
structure Shipment where
  id : Nat
  sender : User
  traveler : Option User
  status : ShipmentStatus
deriving Repr, DecidableEq

/-- `TripCapacity` (apps/trips/models.py): total and used weight, as scaled
decimals. -/
structure TripCapacity where
  total_weight : Int
  used_weight : Int
deriving Repr, DecidableEq

/-- `TripCapacity.available_weight` property. -/
def TripCapacity.available_weight (c : TripCapacity) : Int :=
  c.total_weight - c.used_weight

/-- `TripCapacity.is_full` property. -/
def TripCapacity.is_full (c : TripCapacity) : Bool :=
  c.used_weight ≥ c.total_weight

/-- The fields of `Trip` (apps/trips/models.py) relevant to the engine:
the traveler and the one-to-one capacity record. -/
structure Trip where
  id : Nat
  traveler : User
  capacity : TripCapacity
deriving Repr, DecidableEq

/-- `Request.STATUS_CHOICES` from apps/requests/models.py. -/
inductive RequestStatus where
  | pending
  | accepted
  | rejected
  | countered
  | cancelled
  | expired
deriving Repr, DecidableEq

/-- `CounterOffer` (apps/requests/models.py): sender, receiver, price and the
`created_at` timestamp that defines chronological order. -/
structure CounterOffer where
  sender : User
  receiver : User
  price : Int
  created_at : Nat
deriving Repr, DecidableEq

/-- `Request` (apps/requests/models.py) together with its owned
`CounterOffer` chain (in insertion order) and inlined foreign-key rows for
the optional shipment and trip subjects. -/
structure Request where
  sender : User
  receiver : User
  shipment : Option Shipment
  trip : Option Trip
  offered_price : Int
  status : RequestStatus
  counter_offers : List CounterOffer
  created_at : Nat
  updated_at : Nat
deriving Repr, DecidableEq

/-- Error taxonomy of the spec; each raise site of the source is mapped to
the kind its message denotes. -/
inductive ReqError where
  | validationError
  | authorizationError
  | stateError
  | notFoundError
deriving Repr, DecidableEq

/-- `Request.latest_counter_offer`: `counter_offers.order_by("-created_at").first()`,
i.e. an offer with maximal `created_at` (`none` when the chain is empty). -/
def latest_counter_offer : List CounterOffer → Option CounterOffer
  | [] => none
  | o :: t =>
    match latest_counter_offer t with
    | none => some o
    | some m => if o.created_at ≥ m.created_at then some o else some m

/-- `Request.current_price`: the latest counter offer's price, else
`offered_price`. -/
def Request.current_price (r : Request) : Int :=
  match latest_counter_offer r.counter_offers with
  | some latest => latest.price
  | none => r.offered_price

/-- `IsRequestParticipant.has_object_permission` (apps/requests/permissions.py):
sender, receiver, or superuser. -/
def isRequestParticipant (r : Request) (u : User) : Prop :=
  r.sender.id = u.id ∨ r.receiver.id = u.id ∨ u.is_superuser = true

instance (r : Request) (u : User) : Decidable (isRequestParticipant r u) := by
  unfold isRequestParticipant; infer_instance

/-- `RequestUpdateSerializer.validate_status` (apps/requests/serializers.py):
only the receiver may accept/reject/counter, only the sender may cancel, and
a finalized request admits no status change. -/
def validate_status (r : Request) (u : User) (value : RequestStatus) :
    Except ReqError RequestStatus :=
  -- "Only the receiver can accept, reject, or counter a request."
  if (value = .accepted ∨ value = .rejected ∨ value = .countered) ∧
      r.receiver.id ≠ u.id then
    .error .authorizationError
  -- "Only the sender can cancel a request."
  else if value = .cancelled ∧ r.sender.id ≠ u.id then
    .error .authorizationError
  -- "Cannot change status of a finalized request."
  else if r.status = .accepted ∨ r.status = .rejected ∨
      r.status = .cancelled ∨ r.status = .expired then
    .error .stateError
  else
    .ok value

/-- `RequestDetailView.patch` (apps/requests/views.py): object permission
check, `RequestUpdateSerializer` validation, save of the new status with
`updated_at` bumped, then — when the new status is accepted and a shipment is
linked — resolution of the shipment's traveler and status. -/
def applyStatus (r : Request) (u : User) (value : RequestStatus) (now : Nat) :
    Except ReqError Request :=
  if ¬ isRequestParticipant r u then
    .error .authorizationError
  else
    match validate_status r u value with
    | .error e => .error e
    | .ok v =>
      let r1 : Request := { r with status := v, updated_at := now }
      if v = .accepted then
        match r1.shipment with
        | some s =>
          -- traveler: the request party who is not the shipment owner side
          let traveler : User :=
            if r.sender.id = s.sender.id then r.receiver else r.sender
          .ok { r1 with
                shipment := some { s with traveler := some traveler,
                                          status := .accepted } }
        | none => .ok r1
      else
        .ok r1

/-- `CounterOfferCreateView.post` (apps/requests/views.py) with
`CounterOfferCreateSerializer.validate_price`: participant check, state check
(`pending`/`countered` only), positive price, then creation of the counter
offer addressed to the other party of the Request and the forced
`status = countered` save. -/
def appendCounterOffer (r : Request) (u : User) (price : Int) (now : Nat) :
    Except ReqError Request :=
  -- "Permission denied" unless the acting user is sender or receiver
  if ¬ (u.id = r.sender.id ∨ u.id = r.receiver.id) then
    .error .authorizationError
  -- "Cannot counter offer on this request"
  else if ¬ (r.status = .pending ∨ r.status = .countered) then
    .error .stateError
  -- "Price must be greater than 0."
  else if price ≤ 0 then
    .error .validationError
  else
    let counter_receiver : User :=
      if u.id = r.sender.id then r.receiver else r.sender
    let co : CounterOffer :=
      { sender := u, receiver := counter_receiver, price := price,
        created_at := now }
    .ok { r with counter_offers := r.counter_offers ++ [co],
                 status := .countered, updated_at := now }

/-- `Shipment.objects.get(pk=...)` lookup. -/
def findShipment (shipments : List Shipment) (i : Nat) : Option Shipment :=
  shipments.find? (fun s => s.id = i)

/-- `Trip.objects.get(pk=...)` lookup. -/
def findTrip (trips : List Trip) (i : Nat) : Option Trip :=
  trips.find? (fun t => t.id = i)

/-- `User.objects.get(pk=...)` lookup. -/
def findUser (users : List User) (i : Nat) : Option User :=
  users.find? (fun u => u.id = i)

/-- The shipment branch of `RequestCreateSerializer.validate`: when a
`shipment_id` is supplied the shipment must exist. -/
def lookupShipment (shipments : List Shipment) :
    Option Nat → Except ReqError (Option Shipment)
  | none => .ok none
  | some sid =>
    match findShipment shipments sid with
    | none => .error .validationError -- "Shipment not found."
    | some s => .ok (some s)

/-- The trip branch of `RequestCreateSerializer.validate`: when a `trip_id`
is supplied the trip must exist. -/
def lookupTrip (trips : List Trip) :
    Option Nat → Except ReqError (Option Trip)
  | none => .ok none
  | some tid =>
    match findTrip trips tid with
    | none => .error .validationError -- "Trip not found."
    | some t => .ok (some t)

/-- `RequestListCreateView.post` with `RequestCreateSerializer`
(apps/requests/serializers.py): field validation (`offered_price`'s
`MinValueValidator(0)`), then `validate` (subject required, no self-request,
referenced shipment/trip/receiver must exist), then creation with the
`pending` default status. -/
def createRequest (users : List User) (shipments : List Shipment)
    (trips : List Trip) (sender : User) (receiver_id : Nat)
    (shipment_id trip_id : Option Nat) (offered_price : Int) (now : Nat) :
    Except ReqError Request :=
  if offered_price < 0 then
    .error .validationError
  -- "Either shipment_id or trip_id is required."
  else if shipment_id = none ∧ trip_id = none then
    .error .validationError
  -- "Cannot send request to yourself."
  else if receiver_id = sender.id then
    .error .validationError
  else
    match lookupShipment shipments shipment_id with
    | .error e => .error e
    | .ok sh =>
      match lookupTrip trips trip_id with
      | .error e => .error e
      | .ok tr =>
        match findUser users receiver_id with
        | none => .error .validationError -- "User not found."
        | some receiver =>
          .ok { sender := sender, receiver := receiver, shipment := sh,
                trip := tr, offered_price := offered_price,
                status := .pending, counter_offers := [],
                created_at := now, updated_at := now }

/-- `r.status` is one of the finalized statuses. -/
def Request.finalized (r : Request) : Prop :=
  r.status = .accepted ∨ r.status = .rejected ∨
  r.status = .cancelled ∨ r.status = .expired

instance (r : Request) : Decidable r.finalized := by
  unfold Request.finalized; infer_instance

/-- The chain alternation property claimed by the spec: each counter offer's
sender equals the previous counter offer's receiver. -/
def alternatingB : List CounterOffer → Bool
  | [] => true
  | [_] => true
  | a :: b :: t => (b.sender.id = a.receiver.id) && alternatingB (b :: t)

/-- Requests reachable by the engine's own mutations from a request with an
empty counter-offer chain: successful `appendCounterOffer` and `applyStatus`
steps. -/
inductive Reach : Request → Prop where
  | base : ∀ r : Request, r.counter_offers = [] → Reach r
  | counter : ∀ (r : Request) (u : User) (p : Int) (t : Nat) (r' : Request),
      Reach r → appendCounterOffer r u p t = .ok r' → Reach r'
  | status : ∀ (r : Request) (u : User) (v : RequestStatus) (t : Nat)
      (r' : Request), Reach r → applyStatus r u v t = .ok r' → Reach r'

/-! Concrete instances used to exercise the operations. -/

/-- Example user: request sender. -/
def uA : User := { id := 1, is_superuser := false }

/-- Example user: request receiver. -/
def uB : User := { id := 2, is_superuser := false }

/-- Example user: a third party, not a participant. -/
def uC : User := { id := 3, is_superuser := false }

/-- Example shipment owned by `uA`. -/
def shipA : Shipment :=
  { id := 10, sender := uA, traveler := none, status := .pending }

/-- Example trip capacity: 10.00 total, 2.50 used (scaled decimals). -/
def capT : TripCapacity := { total_weight := 1000, used_weight := 250 }

/-- Example trip offered by `uB`. -/
def tripT : Trip := { id := 20, traveler := uB, capacity := capT }

/-- Example pending request from `uA` to `uB` over `shipA` and `tripT`. -/
def rqPending : Request :=
  { sender := uA, receiver := uB, shipment := some shipA, trip := some tripT,
    offered_price := 5000, status := .pending, counter_offers := [],
    created_at := 0, updated_at := 0 }

/-- Example already-accepted (finalized) request from `uA` to `uB`. -/
def rqAccepted : Request :=
  { rqPending with status := .accepted }

/-- `shipA` as finalized by an acceptance: traveler `uB`, status accepted. -/
def shipAAccepted : Shipment :=
  { shipA with traveler := some uB, status := .accepted }

/-- The persisted outcome of `uB` accepting `rqPending` at time 7. -/
def rqAfterAccept : Request :=
  { rqPending with status := .accepted, updated_at := 7, shipment := some shipAAccepted }

/-! Characterization lemmas for `validate_status` and `applyStatus`. -/

/-- What a successful `validate_status` guarantees: the value is returned
unchanged, the request is not finalized, and the role checks passed. -/
theorem validate_status_ok_inv {r : Request} {u : User}
    {v w : RequestStatus} (h : validate_status r u v = .ok w) :
    w = v ∧ ¬ r.finalized ∧
    ((v = .accepted ∨ v = .rejected ∨ v = .countered) → r.receiver.id = u.id) ∧
    (v = .cancelled → r.sender.id = u.id) := by
  unfold validate_status at h
  split_ifs at h with h1 h2 h3
  injection h with hw
  refine ⟨hw.symm, h3, ?_, ?_⟩
  · intro hv
    by_contra hne
    exact h1 ⟨hv, hne⟩
  · intro hv
    by_contra hne
    exact h2 ⟨hv, hne⟩

/-- `validate_status` succeeds outright when the role pairing holds and the
request is not finalized. -/
theorem validate_status_ok_of {r : Request} {u : User} {v : RequestStatus}
    (hrecv : (v = .accepted ∨ v = .rejected ∨ v = .countered) →
      r.receiver.id = u.id)
    (hsend : v = .cancelled → r.sender.id = u.id)
    (hfin : ¬ r.finalized) :
    validate_status r u v = .ok v := by
  unfold validate_status
  rw [if_neg, if_neg, if_neg]
  · exact hfin
  · rintro ⟨hv, hne⟩
    exact hne (hsend hv)
  · rintro ⟨hv, hne⟩
    exact hne (hrecv hv)

/-- What a successful `applyStatus` guarantees about the result: all fields
other than `status`, `updated_at` and `shipment` are framed, the status is
the requested one, and the role/finalization checks passed. -/
theorem applyStatus_ok_inv {r r' : Request} {u : User} {v : RequestStatus}
    {now : Nat} (h : applyStatus r u v now = .ok r') :
    isRequestParticipant r u ∧ validate_status r u v = .ok v ∧
    r'.sender = r.sender ∧ r'.receiver = r.receiver ∧ r'.trip = r.trip ∧
    r'.counter_offers = r.counter_offers ∧
    r'.offered_price = r.offered_price ∧ r'.created_at = r.created_at ∧
    r'.status = v ∧ r'.updated_at = now := by
  unfold applyStatus at h
  split_ifs at h with hp
  split at h
  next e heq => exact Except.noConfusion h
  next w heq =>
    obtain ⟨hwv, -, -, -⟩ := validate_status_ok_inv heq
    subst hwv
    refine ⟨hp, heq, ?_⟩
    split at h
    next hv =>
      dsimp only at h
      split at h
      next s hs =>
        injection h with hr
        subst hr
        exact ⟨rfl, rfl, rfl, rfl, rfl, rfl, rfl, rfl⟩
      next hs =>
        injection h with hr
        subst hr
        exact ⟨rfl, rfl, rfl, rfl, rfl, rfl, rfl, rfl⟩
    next hv =>
      injection h with hr
      subst hr
      exact ⟨rfl, rfl, rfl, rfl, rfl, rfl, rfl, rfl⟩

/-- `applyStatus` rejects non-participants with the permission error. -/
theorem applyStatus_err_not_participant {r : Request} {u : User}
    {v : RequestStatus} {now : Nat} (h : ¬ isRequestParticipant r u) :
    applyStatus r u v now = .error .authorizationError := by
  unfold applyStatus
  rw [if_pos h]

/-- `applyStatus` propagates `validate_status` errors. -/
theorem applyStatus_err_of_validate {r : Request} {u : User}
    {v : RequestStatus} {now : Nat} {e : ReqError}
    (hp : isRequestParticipant r u) (h : validate_status r u v = .error e) :
    applyStatus r u v now = .error e := by
  unfold applyStatus
  rw [if_neg (not_not_intro hp), h]

/-- `validate_status` rejects accept/reject/counter by a non-receiver. -/
theorem validate_status_err_recv {r : Request} {u : User} {v : RequestStatus}
    (hv : v = .accepted ∨ v = .rejected ∨ v = .countered)
    (hne : r.receiver.id ≠ u.id) :
    validate_status r u v = .error .authorizationError := by
  unfold validate_status
  rw [if_pos ⟨hv, hne⟩]

/-- `validate_status` rejects cancellation by a non-sender. -/
theorem validate_status_err_send {r : Request} {u : User}
    (hv : v = .cancelled) (hne : r.sender.id ≠ u.id) :
    validate_status r u v = .error .authorizationError := by
  unfold validate_status
  rw [if_neg, if_pos ⟨hv, hne⟩]
  rintro ⟨(h | h | h), -⟩ <;> rw [hv] at h <;> exact RequestStatus.noConfusion h

/-- `validate_status` rejects any change to a finalized request once the
role checks pass. -/
theorem validate_status_err_finalized {r : Request} {u : User}
    {v : RequestStatus}
    (hrecv : (v = .accepted ∨ v = .rejected ∨ v = .countered) →
      r.receiver.id = u.id)
    (hsend : v = .cancelled → r.sender.id = u.id)
    (hfin : r.finalized) :
    validate_status r u v = .error .stateError := by
  unfold Request.finalized at hfin
  unfold validate_status
  rw [if_neg, if_neg, if_pos hfin]
  · rintro ⟨hv, hne⟩
    exact hne (hsend hv)
  · rintro ⟨hv, hne⟩
    exact hne (hrecv hv)

/-- C2: `applyStatus` with `accepted`/`rejected` succeeds only when the
acting user is the request's receiver, `cancelled` only when the acting user
is the sender; when the pairing is violated the call fails with
`AuthorizationError` (and, the embedding returning `.error`, nothing is
saved, so the Request is unchanged). -/
theorem role_law_applyStatus (r : Request) (u : User) (t : Nat) :
    (∀ r', applyStatus r u .accepted t = .ok r' → u.id = r.receiver.id) ∧
    (∀ r', applyStatus r u .rejected t = .ok r' → u.id = r.receiver.id) ∧
    (∀ r', applyStatus r u .cancelled t = .ok r' → u.id = r.sender.id) ∧
    (u.id ≠ r.receiver.id →
      applyStatus r u .accepted t = .error .authorizationError) ∧
    (u.id ≠ r.receiver.id →
      applyStatus r u .rejected t = .error .authorizationError) ∧
    (u.id ≠ r.sender.id →
      applyStatus r u .cancelled t = .error .authorizationError) := by
  refine ⟨?_, ?_, ?_, ?_, ?_, ?_⟩
  · intro r' h
    obtain ⟨-, hval, -⟩ := applyStatus_ok_inv h
    obtain ⟨-, -, hrecv, -⟩ := validate_status_ok_inv hval
    exact (hrecv (Or.inl rfl)).symm
  · intro r' h
    obtain ⟨-, hval, -⟩ := applyStatus_ok_inv h
    obtain ⟨-, -, hrecv, -⟩ := validate_status_ok_inv hval
    exact (hrecv (Or.inr (Or.inl rfl))).symm
  · intro r' h
    obtain ⟨-, hval, -⟩ := applyStatus_ok_inv h
    obtain ⟨-, -, -, hsend⟩ := validate_status_ok_inv hval
    exact (hsend rfl).symm
  · intro hne
    by_cases hp : isRequestParticipant r u
    · exact applyStatus_err_of_validate hp
        (validate_status_err_recv (Or.inl rfl) (Ne.symm hne))
    · exact applyStatus_err_not_participant hp
  · intro hne
    by_cases hp : isRequestParticipant r u
    · exact applyStatus_err_of_validate hp
        (validate_status_err_recv (Or.inr (Or.inl rfl)) (Ne.symm hne))
    · exact applyStatus_err_not_participant hp
  · intro hne
    by_cases hp : isRequestParticipant r u
    · exact applyStatus_err_of_validate hp
        (validate_status_err_send rfl (Ne.symm hne))
    · exact applyStatus_err_not_participant hp

/-- Witness for C2 at a concrete input: the sender `uA` cannot accept the
pending request addressed to `uB`. -/
theorem role_law_applyStatus_witness :
    applyStatus rqPending uA .accepted 5 = .error .authorizationError :=
  (role_law_applyStatus rqPending uA 5).2.2.2.1 (by decide)

/-- C3: when `applyStatus` to `accepted` succeeds on a request with a linked
shipment, the shipment ends with status `accepted` and its traveler is the
receiver when the request's sender owns the shipment, the sender otherwise. -/
theorem finalization_law (r r' : Request) (u : User) (t : Nat) (s : Shipment)
    (hship : r.shipment = some s)
    (h : applyStatus r u .accepted t = .ok r') :
    ∃ s', r'.shipment = some s' ∧ s'.status = .accepted ∧
      s'.traveler =
        some (if r.sender.id = s.sender.id then r.receiver else r.sender) := by
  unfold applyStatus at h
  split_ifs at h with hp
  split at h
  next e heq => exact Except.noConfusion h
  next w heq =>
    obtain ⟨hwv, -, -, -⟩ := validate_status_ok_inv heq
    subst hwv
    dsimp only at h
    rw [if_pos rfl] at h
    rw [hship] at h
    dsimp only at h
    injection h with hr
    subst hr
    exact ⟨_, rfl, rfl, rfl⟩

/-- Witness for C3: `uB` accepts `rqPending`, whose shipment is owned by the
request sender `uA`; the traveler becomes `uB`. -/
theorem finalization_law_witness :
    ∃ s', rqAfterAccept.shipment = some s' ∧
      s'.status = .accepted ∧
      s'.traveler = some (if rqPending.sender.id = shipA.sender.id then
        rqPending.receiver else rqPending.sender) :=
  finalization_law rqPending rqAfterAccept uB 7 shipA rfl rfl

/-- C8: a successful acceptance leaves the linked trip — in particular its
capacity ledger's `used_weight`, `available_weight` and `is_full` — exactly
as it was. -/
theorem accept_frames_capacity (r r' : Request) (u : User) (t : Nat)
    (h : applyStatus r u .accepted t = .ok r') :
    r'.trip = r.trip ∧
    r'.trip.map (fun tr => tr.capacity.used_weight) =
      r.trip.map (fun tr => tr.capacity.used_weight) ∧
    r'.trip.map (fun tr => tr.capacity.available_weight) =
      r.trip.map (fun tr => tr.capacity.available_weight) ∧
    r'.trip.map (fun tr => tr.capacity.is_full) =
      r.trip.map (fun tr => tr.capacity.is_full) := by
  obtain ⟨-, -, -, -, htrip, -⟩ := applyStatus_ok_inv h
  rw [htrip]
  exact ⟨rfl, rfl, rfl, rfl⟩

/-- Witness for C8: accepting `rqPending` (which carries `tripT`) leaves the
trip record untouched. -/
theorem accept_frames_capacity_witness :
    rqAfterAccept.trip = rqPending.trip ∧
    rqAfterAccept.trip.map (fun tr => tr.capacity.used_weight) =
      rqPending.trip.map (fun tr => tr.capacity.used_weight) ∧
    rqAfterAccept.trip.map (fun tr => tr.capacity.available_weight) =
      rqPending.trip.map (fun tr => tr.capacity.available_weight) ∧
    rqAfterAccept.trip.map (fun tr => tr.capacity.is_full) =
      rqPending.trip.map (fun tr => tr.capacity.is_full) :=
  accept_frames_capacity rqPending rqAfterAccept uB 7 rfl

/-- C10: the status-update path applies role checks only to accept, reject,
counter and cancel; any participant can move a non-finalized request to
`expired` or back to `pending`, with no authorization failure. -/
theorem participant_can_expire_or_reset (r : Request) (u : User) (t : Nat)
    (hfin : ¬ r.finalized)
    (hpart : u.id = r.sender.id ∨ u.id = r.receiver.id) :
    (∃ r', applyStatus r u .expired t = .ok r' ∧ r'.status = .expired) ∧
    (∃ r', applyStatus r u .pending t = .ok r' ∧ r'.status = .pending) := by
  have hp : isRequestParticipant r u := by
    rcases hpart with h | h
    · exact Or.inl h.symm
    · exact Or.inr (Or.inl h.symm)
  constructor
  · refine ⟨{ r with status := .expired, updated_at := t }, ?_, rfl⟩
    unfold applyStatus
    rw [if_neg (not_not_intro hp),
      validate_status_ok_of (fun h => absurd h (by decide))
        (fun h => absurd h (by decide)) hfin]
    dsimp only
    rw [if_neg (by decide : ¬ (RequestStatus.expired = .accepted))]
  · refine ⟨{ r with status := .pending, updated_at := t }, ?_, rfl⟩
    unfold applyStatus
    rw [if_neg (not_not_intro hp),
      validate_status_ok_of (fun h => absurd h (by decide))
        (fun h => absurd h (by decide)) hfin]
    dsimp only
    rw [if_neg (by decide : ¬ (RequestStatus.pending = .accepted))]

/-- Witness for C10: the sender `uA` can mark the pending request expired
and can re-set it to pending. -/
theorem participant_can_expire_or_reset_witness :
    (∃ r', applyStatus rqPending uA .expired 3 = .ok r' ∧
      r'.status = .expired) ∧
    (∃ r', applyStatus rqPending uA .pending 3 = .ok r' ∧
      r'.status = .pending) :=
  participant_can_expire_or_reset rqPending uA 3 (by decide) (by decide)

/-! `appendCounterOffer` characterization lemmas. -/

/-- The counter offer the view builds for acting user `u` at time `t`. -/
def mkCounterOffer (r : Request) (u : User) (p : Int) (t : Nat) :
    CounterOffer :=
  { sender := u,
    receiver := if u.id = r.sender.id then r.receiver else r.sender,
    price := p, created_at := t }

/-- The request row as saved by a successful counter-offer creation. -/
def counteredRequest (r : Request) (u : User) (p : Int) (t : Nat) : Request :=
  { r with counter_offers := r.counter_offers ++ [mkCounterOffer r u p t],
           status := .countered, updated_at := t }

/-- Non-participants get the permission error. -/
theorem append_err_not_participant {r : Request} {u : User} {p : Int}
    {t : Nat} (h : ¬ (u.id = r.sender.id ∨ u.id = r.receiver.id)) :
    appendCounterOffer r u p t = .error .authorizationError := by
  unfold appendCounterOffer
  rw [if_pos h]

/-- Participants countering a request not in `pending`/`countered` get the
state error. -/
theorem append_err_state {r : Request} {u : User} {p : Int} {t : Nat}
    (hpart : u.id = r.sender.id ∨ u.id = r.receiver.id)
    (hst : ¬ (r.status = .pending ∨ r.status = .countered)) :
    appendCounterOffer r u p t = .error .stateError := by
  unfold appendCounterOffer
  rw [if_neg (not_not_intro hpart), if_pos hst]

/-- A non-positive price is rejected once the other checks pass. -/
theorem append_err_price {r : Request} {u : User} {p : Int} {t : Nat}
    (hpart : u.id = r.sender.id ∨ u.id = r.receiver.id)
    (hst : r.status = .pending ∨ r.status = .countered) (hp : p ≤ 0) :
    appendCounterOffer r u p t = .error .validationError := by
  unfold appendCounterOffer
  rw [if_neg (not_not_intro hpart), if_neg (not_not_intro hst), if_pos hp]

/-- When all checks pass, the counter offer is appended and the request is
forced to `countered`. -/
theorem append_ok_of {r : Request} {u : User} {p : Int} {t : Nat}
    (hpart : u.id = r.sender.id ∨ u.id = r.receiver.id)
    (hst : r.status = .pending ∨ r.status = .countered) (hp : 0 < p) :
    appendCounterOffer r u p t = .ok (counteredRequest r u p t) := by
  unfold appendCounterOffer
  rw [if_neg (not_not_intro hpart), if_neg (not_not_intro hst),
    if_neg (not_le_of_lt hp)]
  rfl

/-- What a successful `appendCounterOffer` guarantees: the checks passed and
the result is exactly the countered request row. -/
theorem append_ok_inv {r r' : Request} {u : User} {p : Int} {t : Nat}
    (h : appendCounterOffer r u p t = .ok r') :
    (u.id = r.sender.id ∨ u.id = r.receiver.id) ∧
    (r.status = .pending ∨ r.status = .countered) ∧ 0 < p ∧
    r' = counteredRequest r u p t := by
  unfold appendCounterOffer at h
  split_ifs at h with h1 h2 h3 h4
  · dsimp only at h
    injection h with hr
    refine ⟨h1, h2, lt_of_not_le h3, ?_⟩
    rw [← hr]
    unfold counteredRequest mkCounterOffer
    rw [if_pos h4]
  · dsimp only at h
    injection h with hr
    refine ⟨h1, h2, lt_of_not_le h3, ?_⟩
    rw [← hr]
    unfold counteredRequest mkCounterOffer
    rw [if_neg h4]

/-! Concrete counter-offer chains used as witnesses and counterexamples. -/

/-- First counter offer on `rqPending`: the request sender `uA` counters. -/
def coA1 : CounterOffer :=
  { sender := uA, receiver := uB, price := 4000, created_at := 1 }

/-- `rqPending` after `uA`'s counter offer. -/
def rqC1 : Request :=
  { rqPending with counter_offers := [coA1], status := .countered, updated_at := 1 }

/-- Second counter offer, this time by the receiver `uB`. -/
def coB2 : CounterOffer :=
  { sender := uB, receiver := uA, price := 4500, created_at := 2 }

/-- `rqC1` after `uB`'s counter offer: an alternating two-offer chain. -/
def rqC2 : Request :=
  { rqC1 with counter_offers := [coA1, coB2], updated_at := 2 }

/-- Second counter offer sent again by `uA`, re-entering the negotiation. -/
def coA2 : CounterOffer :=
  { sender := uA, receiver := uB, price := 3000, created_at := 2 }

/-- `rqC1` after `uA` counters a second time in a row: a non-alternating
chain. -/
def rqD2 : Request :=
  { rqC1 with counter_offers := [coA1, coA2], updated_at := 2 }

/-- C5: a successful `appendCounterOffer` appends one offer whose sender is
the acting user, whose receiver is the other party of the Request, and whose
price is the given one; the request status is forced to `countered` (from
either `pending` or `countered`) and `updated_at` is bumped. -/
theorem counter_offer_effects (r r' : Request) (u : User) (p : Int) (t : Nat)
    (h : appendCounterOffer r u p t = .ok r') :
    r'.counter_offers = r.counter_offers ++
      [{ sender := u,
         receiver := if u.id = r.sender.id then r.receiver else r.sender,
         price := p, created_at := t }] ∧
    r'.status = .countered ∧ r'.updated_at = t ∧
    (r.status = .pending ∨ r.status = .countered) := by
  obtain ⟨-, hst, -, hr⟩ := append_ok_inv h
  subst hr
  exact ⟨rfl, rfl, rfl, hst⟩

/-- Witness for C5: `uA` counters the pending request; the new offer is
addressed to `uB` and the request becomes countered. -/
theorem counter_offer_effects_witness :
    rqC1.counter_offers = rqPending.counter_offers ++
      [{ sender := uA,
         receiver := if uA.id = rqPending.sender.id then rqPending.receiver
           else rqPending.sender,
         price := 4000, created_at := 1 }] ∧
    rqC1.status = .countered ∧ rqC1.updated_at = 1 ∧
    (rqPending.status = .pending ∨ rqPending.status = .countered) :=
  counter_offer_effects rqPending rqC1 uA 4000 1 rfl

/-- C6 (amended): the three counter-offer guards, in the order the code
checks them — participancy (else `AuthorizationError`), then request state
(else `StateError`), then positive price (else `ValidationError`); when all
hold the call succeeds. An earlier failing check masks the later errors, and
any failure leaves the request unchanged (the embedding returns `.error`
before anything is saved). -/
theorem counter_offer_guards (r : Request) (u : User) (p : Int) (t : Nat) :
    (¬ (u.id = r.sender.id ∨ u.id = r.receiver.id) →
      appendCounterOffer r u p t = .error .authorizationError) ∧
    ((u.id = r.sender.id ∨ u.id = r.receiver.id) →
      ¬ (r.status = .pending ∨ r.status = .countered) →
      appendCounterOffer r u p t = .error .stateError) ∧
    ((u.id = r.sender.id ∨ u.id = r.receiver.id) →
      (r.status = .pending ∨ r.status = .countered) → p ≤ 0 →
      appendCounterOffer r u p t = .error .validationError) ∧
    ((u.id = r.sender.id ∨ u.id = r.receiver.id) →
      (r.status = .pending ∨ r.status = .countered) → 0 < p →
      appendCounterOffer r u p t = .ok (counteredRequest r u p t)) :=
  ⟨append_err_not_participant, append_err_state, append_err_price,
    append_ok_of⟩

/-- Counterexample for C6 as stated: on the finalized `rqAccepted`, the
outsider `uC` offering price 0 is rejected with `AuthorizationError` — not
with the `StateError` the claim requires for a non-`pending`/`countered`
status, nor with the `ValidationError` it requires for `price <= 0`. -/
theorem counter_offer_guards_counterexample :
    appendCounterOffer rqAccepted uC 0 5 = .error .authorizationError ∧
    ReqError.authorizationError ≠ ReqError.stateError ∧
    ReqError.authorizationError ≠ ReqError.validationError :=
  ⟨rfl, by decide, by decide⟩

/-- Witness for C6's amended theorem: the participant `uA` countering the
finalized `rqAccepted` gets the state error. -/
theorem counter_offer_guards_witness :
    appendCounterOffer rqAccepted uA 100 5 = .error .stateError :=
  (counter_offer_guards rqAccepted uA 100 5).2.1 (by decide) (by decide)

/-- A finalized request is in neither of the counter-offer-able states. -/
theorem finalized_not_open {r : Request} (hfin : r.finalized) :
    ¬ (r.status = .pending ∨ r.status = .countered) := by
  rcases hfin with h | h | h | h <;> rintro (h' | h') <;> rw [h] at h' <;>
    exact RequestStatus.noConfusion h'

/-- C1 (amended): once a request is finalized, every `applyStatus` and every
`appendCounterOffer` fails (leaving the request unchanged — the embedding
errors before any save); the failure is `StateError` whenever the actor
passes the role/participancy checks (in particular for the receiver
re-accepting an accepted request), and `AuthorizationError` otherwise
(the actor is no participant, or a participant violating the role pairing
for the requested status). -/
theorem finalized_immutable (r : Request) (u : User) (v : RequestStatus)
    (p : Int) (t : Nat) (hfin : r.finalized) :
    (∃ e, applyStatus r u v t = .error e) ∧
    (∃ e, appendCounterOffer r u p t = .error e) ∧
    (isRequestParticipant r u →
      ((v = .accepted ∨ v = .rejected ∨ v = .countered) →
        r.receiver.id = u.id) →
      (v = .cancelled → r.sender.id = u.id) →
      applyStatus r u v t = .error .stateError) ∧
    ((u.id = r.sender.id ∨ u.id = r.receiver.id) →
      appendCounterOffer r u p t = .error .stateError) ∧
    (¬ (isRequestParticipant r u ∧
        ((v = .accepted ∨ v = .rejected ∨ v = .countered) →
          r.receiver.id = u.id) ∧
        (v = .cancelled → r.sender.id = u.id)) →
      applyStatus r u v t = .error .authorizationError) ∧
    (¬ (u.id = r.sender.id ∨ u.id = r.receiver.id) →
      appendCounterOffer r u p t = .error .authorizationError) := by
  refine ⟨?_, ?_, ?_, ?_, ?_, ?_⟩
  · by_cases hp : isRequestParticipant r u
    · cases hval : validate_status r u v with
      | error e => exact ⟨e, applyStatus_err_of_validate hp hval⟩
      | ok w =>
        obtain ⟨-, hnfin, -, -⟩ := validate_status_ok_inv hval
        exact absurd hfin hnfin
    · exact ⟨_, applyStatus_err_not_participant hp⟩
  · by_cases hpart : u.id = r.sender.id ∨ u.id = r.receiver.id
    · exact ⟨_, append_err_state hpart (finalized_not_open hfin)⟩
    · exact ⟨_, append_err_not_participant hpart⟩
  · intro hp hrecv hsend
    exact applyStatus_err_of_validate hp
      (validate_status_err_finalized hrecv hsend hfin)
  · intro hpart
    exact append_err_state hpart (finalized_not_open hfin)
  · intro hno
    by_cases hp : isRequestParticipant r u
    · have hbc : ¬ (((v = .accepted ∨ v = .rejected ∨ v = .countered) →
          r.receiver.id = u.id) ∧
          (v = .cancelled → r.sender.id = u.id)) :=
        fun hb => hno ⟨hp, hb.1, hb.2⟩
      rcases not_and_or.mp hbc with hB | hC
      · rw [Classical.not_imp] at hB
        exact applyStatus_err_of_validate hp
          (validate_status_err_recv hB.1 hB.2)
      · rw [Classical.not_imp] at hC
        exact applyStatus_err_of_validate hp
          (validate_status_err_send hC.1 hC.2)
    · exact applyStatus_err_not_participant hp
  · intro hpart
    exact append_err_not_participant hpart

/-- Counterexample for C1 as stated: on the finalized `rqAccepted`, the
sender `uA` attempting to set `accepted` is rejected with
`AuthorizationError` (the role check fires first), not with the `StateError`
the claim requires of every subsequent status update. -/
theorem finalized_immutable_counterexample :
    applyStatus rqAccepted uA .accepted 9 = .error .authorizationError ∧
    ReqError.authorizationError ≠ ReqError.stateError :=
  ⟨rfl, by decide⟩

/-- Witness for C1's amended theorem: the receiver `uB` re-accepting the
already-accepted request gets the state error, while the outsider `uC`
attempting the same gets the authorization error. -/
theorem finalized_immutable_witness :
    applyStatus rqAccepted uB .accepted 9 = .error .stateError ∧
    applyStatus rqAccepted uC .accepted 9 = .error .authorizationError :=
  ⟨(finalized_immutable rqAccepted uB .accepted 100 9
      (by decide)).2.2.1 (by decide) (by decide) (by decide),
    (finalized_immutable rqAccepted uC .accepted 100 9
      (by decide)).2.2.2.2.1 (by decide)⟩

/-- Invariant over reachable requests: every counter offer in the chain is
between the request's two parties, addressed to the party other than its
sender. -/
theorem reach_offers_parties {r : Request} (h : Reach r) :
    ∀ co ∈ r.counter_offers,
      (co.sender.id = r.sender.id ∧ co.receiver.id = r.receiver.id) ∨
      (co.sender.id = r.receiver.id ∧ co.receiver.id = r.sender.id) := by
  induction h with
  | base r hr =>
    rw [hr]
    intro co hco
    exact absurd hco (List.not_mem_nil co)
  | counter r u p t r' hreach hok ih =>
    obtain ⟨hpart, -, -, hr'⟩ := append_ok_inv hok
    subst hr'
    intro co hco
    unfold counteredRequest at hco ⊢
    dsimp only at hco ⊢
    rcases List.mem_append.mp hco with hin | hnew
    · exact ih co hin
    · have hco' : co = mkCounterOffer r u p t := List.mem_singleton.mp hnew
      subst hco'
      unfold mkCounterOffer
      by_cases hu : u.id = r.sender.id
      · rw [if_pos hu]
        exact Or.inl ⟨hu, rfl⟩
      · rw [if_neg hu]
        rcases hpart with h' | h'
        · exact absurd h' hu
        · exact Or.inr ⟨h', rfl⟩
  | status r u v t r' hreach hok ih =>
    obtain ⟨-, -, hsend, hrecv, -, hoffers, -, -, -, -⟩ :=
      applyStatus_ok_inv hok
    intro co hco
    rw [hoffers] at hco
    rw [hsend, hrecv]
    exact ih co hco

/-- C7 (amended): along any chain reachable by the engine, any two
consecutive counter offers *with distinct senders* satisfy
`sender[i+1] = receiver[i]`; the code does not stop the same party from
sending two offers in a row, in which case the receiver repeats instead of
alternating. -/
theorem counter_chain_parties (r : Request) (h : Reach r) (i : Nat)
    (hi : i + 1 < r.counter_offers.length)
    (hdiff : (r.counter_offers.get ⟨i + 1, hi⟩).sender.id ≠
      (r.counter_offers.get ⟨i, Nat.lt_of_succ_lt hi⟩).sender.id) :
    (r.counter_offers.get ⟨i + 1, hi⟩).sender.id =
      (r.counter_offers.get ⟨i, Nat.lt_of_succ_lt hi⟩).receiver.id := by
  have ha := reach_offers_parties h _
    (r.counter_offers.get_mem i (Nat.lt_of_succ_lt hi))
  have hb := reach_offers_parties h _ (r.counter_offers.get_mem (i + 1) hi)
  rcases ha with ⟨has, har⟩ | ⟨has, har⟩ <;>
    rcases hb with ⟨hbs, hbr⟩ | ⟨hbs, hbr⟩
  · exact absurd (hbs.trans has.symm) hdiff
  · exact hbs.trans har.symm
  · exact hbs.trans har.symm
  · exact absurd (hbs.trans has.symm) hdiff

/-- Witness for C7's amended theorem: in the two-offer chain of `rqC2`
(`uA` then `uB`), the second sender equals the first receiver. -/
theorem counter_chain_parties_witness :
    (rqC2.counter_offers.get ⟨1, by decide⟩).sender.id =
      (rqC2.counter_offers.get ⟨0, by decide⟩).receiver.id :=
  counter_chain_parties rqC2
    (Reach.counter rqC1 uB 4500 2 rqC2
      (Reach.counter rqPending uA 4000 1 rqC1 (Reach.base rqPending rfl) rfl)
      rfl)
    0 (by decide) (by decide)

/-- Counterexample for C7 as stated: `uA` counters twice in a row; both
appends succeed, the resulting chain is reachable, and consecutive entries
do not satisfy `sender[i+1] = receiver[i]`. -/
theorem counter_chain_parties_counterexample :
    appendCounterOffer rqPending uA 4000 1 = .ok rqC1 ∧
    appendCounterOffer rqC1 uA 3000 2 = .ok rqD2 ∧
    Reach rqD2 ∧
    alternatingB rqD2.counter_offers = false :=
  ⟨rfl, rfl,
    Reach.counter rqC1 uA 3000 2 rqD2
      (Reach.counter rqPending uA 4000 1 rqC1 (Reach.base rqPending rfl) rfl)
      rfl,
    rfl⟩

/-- On a chain whose `created_at` stamps strictly increase in insertion
order, the offer of maximal `created_at` is the last one. -/
theorem latest_counter_offer_sorted :
    ∀ (l : List CounterOffer),
      List.Chain' (fun a b => a.created_at < b.created_at) l →
      ∀ hne : l ≠ [], latest_counter_offer l = some (l.getLast hne) := by
  intro l
  induction l with
  | nil => intro _ hne; exact absurd rfl hne
  | cons o t ih =>
    intro hchain hne
    cases t with
    | nil => rfl
    | cons o2 t2 =>
      haveI : IsTrans CounterOffer (fun a b => a.created_at < b.created_at) :=
        ⟨fun _ _ _ hab hbc => Nat.lt_trans hab hbc⟩
      have hne' : o2 :: t2 ≠ [] := List.cons_ne_nil o2 t2
      have hpw := List.chain'_iff_pairwise.mp hchain
      have hox := (List.pairwise_cons.mp hpw).1 _ (List.getLast_mem hne')
      have hrec := ih (List.chain'_cons.mp hchain).2 hne'
      unfold latest_counter_offer
      rw [hrec]
      dsimp only
      rw [if_neg (not_le_of_lt hox), List.getLast_cons hne']

/-- C4: with the chain in chronological insertion order, `current_price` is
the original `offered_price` when no counter offer exists, and the price of
the chronologically last counter offer otherwise. -/
theorem current_price_spec (r : Request)
    (hchain : List.Chain' (fun a b => a.created_at < b.created_at)
      r.counter_offers) :
    (r.counter_offers = [] → r.current_price = r.offered_price) ∧
    ∀ hne : r.counter_offers ≠ [],
      r.current_price = (r.counter_offers.getLast hne).price := by
  constructor
  · intro he
    unfold Request.current_price
    rw [he]
    rfl
  · intro hne
    unfold Request.current_price
    rw [latest_counter_offer_sorted _ hchain hne]

/-- Witness for C4: the negotiated price of the two-offer chain `rqC2` is
the last offer's 45.00, not the original 50.00. -/
theorem current_price_spec_witness : rqC2.current_price = 4500 := by
  have hchain : List.Chain' (fun a b => a.created_at < b.created_at)
      rqC2.counter_offers :=
    List.chain'_cons.mpr ⟨by decide, List.chain'_singleton coB2⟩
  have h := (current_price_spec rqC2 hchain).2 (by decide)
  rw [h]
  rfl

/-! `createRequest` characterization. -/

/-- A failing shipment branch means a `shipment_id` was given and not
found, and the error is the validation kind. -/
theorem lookupShipment_err {shipments : List Shipment} {so : Option Nat}
    {e : ReqError} (h : lookupShipment shipments so = .error e) :
    e = .validationError ∧
    ∃ sid, so = some sid ∧ findShipment shipments sid = none := by
  cases so with
  | none => exact Except.noConfusion h
  | some sid =>
    unfold lookupShipment at h
    dsimp only at h
    cases hf : findShipment shipments sid with
    | none =>
      rw [hf] at h
      injection h with h'
      exact ⟨h'.symm, sid, rfl, hf⟩
    | some s =>
      rw [hf] at h
      exact Except.noConfusion h

/-- A successful shipment branch returns nothing (no id given) or the found
shipment. -/
theorem lookupShipment_ok {shipments : List Shipment} {so : Option Nat}
    {sh : Option Shipment} (h : lookupShipment shipments so = .ok sh) :
    (so = none ∧ sh = none) ∨
    ∃ sid s, so = some sid ∧ findShipment shipments sid = some s ∧
      sh = some s := by
  cases so with
  | none =>
    unfold lookupShipment at h
    injection h with h'
    exact Or.inl ⟨rfl, h'.symm⟩
  | some sid =>
    unfold lookupShipment at h
    dsimp only at h
    cases hf : findShipment shipments sid with
    | none =>
      rw [hf] at h
      exact Except.noConfusion h
    | some s =>
      rw [hf] at h
      injection h with h'
      exact Or.inr ⟨sid, s, rfl, hf, h'.symm⟩

/-- A failing trip branch means a `trip_id` was given and not found, and the
error is the validation kind. -/
theorem lookupTrip_err {trips : List Trip} {to_ : Option Nat} {e : ReqError}
    (h : lookupTrip trips to_ = .error e) :
    e = .validationError ∧
    ∃ tid, to_ = some tid ∧ findTrip trips tid = none := by
  cases to_ with
  | none => exact Except.noConfusion h
  | some tid =>
    unfold lookupTrip at h
    dsimp only at h
    cases hf : findTrip trips tid with
    | none =>
      rw [hf] at h
      injection h with h'
      exact ⟨h'.symm, tid, rfl, hf⟩
    | some t =>
      rw [hf] at h
      exact Except.noConfusion h

/-- A successful trip branch returns nothing (no id given) or the found
trip. -/
theorem lookupTrip_ok {trips : List Trip} {to_ : Option Nat}
    {tr : Option Trip} (h : lookupTrip trips to_ = .ok tr) :
    (to_ = none ∧ tr = none) ∨
    ∃ tid t, to_ = some tid ∧ findTrip trips tid = some t ∧
      tr = some t := by
  cases to_ with
  | none =>
    unfold lookupTrip at h
    injection h with h'
    exact Or.inl ⟨rfl, h'.symm⟩
  | some tid =>
    unfold lookupTrip at h
    dsimp only at h
    cases hf : findTrip trips tid with
    | none =>
      rw [hf] at h
      exact Except.noConfusion h
    | some t =>
      rw [hf] at h
      injection h with h'
      exact Or.inr ⟨tid, t, rfl, hf, h'.symm⟩

/-- Every error `createRequest` produces is of the validation kind. -/
theorem createRequest_err_kind {users : List User} {shipments : List Shipment}
    {trips : List Trip} {sender : User} {receiver_id : Nat}
    {shipment_id trip_id : Option Nat} {offered_price : Int} {now : Nat}
    {e : ReqError}
    (h : createRequest users shipments trips sender receiver_id shipment_id
      trip_id offered_price now = .error e) :
    e = .validationError := by
  unfold createRequest at h
  split_ifs at h with h1 h2 h3
  · injection h with h'
    exact h'.symm
  · injection h with h'
    exact h'.symm
  · injection h with h'
    exact h'.symm
  · split at h
    next e' heq =>
      injection h with h'
      rw [← h']
      exact (lookupShipment_err heq).1
    next sh heq =>
      split at h
      next e' heq2 =>
        injection h with h'
        rw [← h']
        exact (lookupTrip_err heq2).1
      next tr heq2 =>
        split at h
        next heq3 =>
          injection h with h'
          exact h'.symm
        next recv heq3 => exact Except.noConfusion h

/-- The malformed-input conditions of the create contract, as the claim
lists them. -/
def BadCreateInput (users : List User) (shipments : List Shipment)
    (trips : List Trip) (sender : User) (receiver_id : Nat)
    (shipment_id trip_id : Option Nat) (offered_price : Int) : Prop :=
  (shipment_id = none ∧ trip_id = none) ∨ receiver_id = sender.id ∨
  offered_price < 0 ∨
  (∃ sid, shipment_id = some sid ∧ findShipment shipments sid = none) ∨
  (∃ tid, trip_id = some tid ∧ findTrip trips tid = none) ∨
  findUser users receiver_id = none

/-- Every error `createRequest` produces comes from one of the malformed
input conditions. -/
theorem createRequest_error_cases {users : List User}
    {shipments : List Shipment} {trips : List Trip} {sender : User}
    {receiver_id : Nat} {shipment_id trip_id : Option Nat}
    {offered_price : Int} {now : Nat} {e : ReqError}
    (h : createRequest users shipments trips sender receiver_id shipment_id
      trip_id offered_price now = .error e) :
    BadCreateInput users shipments trips sender receiver_id shipment_id
      trip_id offered_price := by
  unfold createRequest at h
  split_ifs at h with h1 h2 h3
  · exact Or.inr (Or.inr (Or.inl h1))
  · exact Or.inl h2
  · exact Or.inr (Or.inl h3)
  · split at h
    next e' heq =>
      exact Or.inr (Or.inr (Or.inr (Or.inl (lookupShipment_err heq).2)))
    next sh heq =>
      split at h
      next e' heq2 =>
        exact Or.inr (Or.inr (Or.inr (Or.inr (Or.inl
          (lookupTrip_err heq2).2))))
      next tr heq2 =>
        split at h
        next heq3 =>
          exact Or.inr (Or.inr (Or.inr (Or.inr (Or.inr heq3))))
        next recv heq3 => exact Except.noConfusion h

/-- What a successful `createRequest` guarantees: none of the malformed
conditions held, and the created request has a subject and distinct
parties. -/
theorem createRequest_ok_inv {users : List User} {shipments : List Shipment}
    {trips : List Trip} {sender : User} {receiver_id : Nat}
    {shipment_id trip_id : Option Nat} {offered_price : Int} {now : Nat}
    {r' : Request}
    (h : createRequest users shipments trips sender receiver_id shipment_id
      trip_id offered_price now = .ok r') :
    ¬ offered_price < 0 ∧ ¬ (shipment_id = none ∧ trip_id = none) ∧
    receiver_id ≠ sender.id ∧
    (∀ sid, shipment_id = some sid →
      ∃ s, findShipment shipments sid = some s) ∧
    (∀ tid, trip_id = some tid → ∃ t, findTrip trips tid = some t) ∧
    (∃ recv, findUser users receiver_id = some recv) ∧
    (r'.shipment.isSome ∨ r'.trip.isSome) ∧
    r'.sender.id ≠ r'.receiver.id := by
  unfold createRequest at h
  split_ifs at h with h1 h2 h3
  split at h
  next e' heq => exact Except.noConfusion h
  next sh heq =>
    split at h
    next e' heq2 => exact Except.noConfusion h
    next tr heq2 =>
      split at h
      next heq3 => exact Except.noConfusion h
      next recv heq3 =>
        injection h with hr
        subst hr
        have hrecvid : recv.id = receiver_id := by
          have := List.find?_some heq3
          exact of_decide_eq_true this
        refine ⟨h1, h2, h3, ?_, ?_, ⟨recv, heq3⟩, ?_, ?_⟩
        · intro sid hsid
          rcases lookupShipment_ok heq with ⟨hnone, -⟩ | ⟨sid', s, hsid', hf, -⟩
          · rw [hsid] at hnone
            exact Option.noConfusion hnone
          · rw [hsid] at hsid'
            injection hsid' with hsid''
            exact ⟨s, hsid'' ▸ hf⟩
        · intro tid htid
          rcases lookupTrip_ok heq2 with ⟨hnone, -⟩ | ⟨tid', t, htid', hf, -⟩
          · rw [htid] at hnone
            exact Option.noConfusion hnone
          · rw [htid] at htid'
            injection htid' with htid''
            exact ⟨t, htid'' ▸ hf⟩
        · rcases lookupShipment_ok heq with ⟨hsn, hshn⟩ | ⟨sid, s, -, -, hsh⟩
          · rcases lookupTrip_ok heq2 with ⟨htn, -⟩ | ⟨tid, t, -, -, htr⟩
            · exact absurd ⟨hsn, htn⟩ h2
            · rw [htr]
              exact Or.inr rfl
          · rw [hsh]
            exact Or.inl rfl
        · intro hids
          exact h3 (hrecvid ▸ hids.symm)

/-- C9: `createRequest` fails (with a `ValidationError`, creating nothing)
exactly when the input is malformed — no subject, self-request, negative
price, or a dangling shipment/trip/receiver reference — and on success the
request has at least one subject and distinct parties. -/
theorem create_request_validation (users : List User)
    (shipments : List Shipment) (trips : List Trip) (sender : User)
    (receiver_id : Nat) (shipment_id trip_id : Option Nat)
    (offered_price : Int) (now : Nat) :
    ((∃ e, createRequest users shipments trips sender receiver_id shipment_id
        trip_id offered_price now = .error e) ↔
      BadCreateInput users shipments trips sender receiver_id shipment_id
        trip_id offered_price) ∧
    (∀ e, createRequest users shipments trips sender receiver_id shipment_id
        trip_id offered_price now = .error e → e = .validationError) ∧
    (∀ r', createRequest users shipments trips sender receiver_id shipment_id
        trip_id offered_price now = .ok r' →
      (r'.shipment.isSome ∨ r'.trip.isSome) ∧
      r'.sender.id ≠ r'.receiver.id) := by
  refine ⟨⟨?_, ?_⟩, ?_, ?_⟩
  · rintro ⟨e, he⟩
    exact createRequest_error_cases he
  · intro hbad
    cases hC : createRequest users shipments trips sender receiver_id
        shipment_id trip_id offered_price now with
    | error e => exact ⟨e, rfl⟩
    | ok r' =>
      obtain ⟨hn1, hn2, hn3, hs, ht, hu, -, -⟩ := createRequest_ok_inv hC
      rcases hbad with hb | hb | hb | ⟨sid, hsid, hfs⟩ | ⟨tid, htid, hft⟩ | hfu
      · exact absurd hb hn2
      · exact absurd hb hn3
      · exact absurd hb hn1
      · obtain ⟨s, hs'⟩ := hs sid hsid
        rw [hfs] at hs'
        exact Option.noConfusion hs'
      · obtain ⟨t, ht'⟩ := ht tid htid
        rw [hft] at ht'
        exact Option.noConfusion ht'
      · obtain ⟨recv, hu'⟩ := hu
        rw [hfu] at hu'
        exact Option.noConfusion hu'
  · intro e he
    exact createRequest_err_kind he
  · intro r' hr'
    obtain ⟨-, -, -, -, -, -, hsome, hne⟩ := createRequest_ok_inv hr'
    exact ⟨hsome, hne⟩

/-- The request created in the C9 witness scenario. -/
def rqCreated : Request :=
  { sender := uA, receiver := uB, shipment := some shipA, trip := none,
    offered_price := 5000, status := .pending, counter_offers := [],
    created_at := 0, updated_at := 0 }

/-- Witness for C9: with well-formed input (existing shipment 10, existing
receiver `uB`, non-negative price), creation succeeds and yields a request
with a subject and distinct parties. -/
theorem create_request_validation_witness :
    (rqCreated.shipment.isSome ∨ rqCreated.trip.isSome) ∧
    rqCreated.sender.id ≠ rqCreated.receiver.id :=
  (create_request_validation [uA, uB] [shipA] [tripT] uA 2 (some 10) none
    5000 0).2.2 rqCreated rfl

end Tramper
